import Mathlib

/-!
Verification of the ansine metrics core (src/parser.rs, src/metrics.rs,
src/main.rs) against its specification.

The parsers are a shallow embedding of the nom combinators actually used by
the source, over `List Char`.  A parser result is `Option (List Char × α)`:
`some (rest, value)` for a successful parse (`rest` is the unconsumed input,
matching nom's `IResult` remainder) and `none` for any nom error.  The only
`cut` in play (inside `double`'s exponent) never sits under an `alt`/`many0`
of this code, so hard and soft errors can share `none`.

Machine integers are `Nat`/`Int` with explicit bounds: `usize` arithmetic
that can overflow is taken modulo `2 ^ 64` (release-mode wrapping semantics;
debug builds would panic at the same inputs, which the relevant theorems
note), and the `str::FromStr` conversions fail outside the machine range
exactly as `map_res` does in the source.
-/

/-- The characters matched by nom's `multispace0`: space, tab, CR, LF. -/
def isSpaceChar (c : Char) : Bool :=
  c == ' ' || c == '\t' || c == '\r' || c == '\n'

/-- nom `multispace0`: drop the maximal leading run of whitespace. -/
def multispace0 : List Char → List Char
  | [] => []
  | c :: r => if isSpaceChar c then multispace0 r else c :: r

/-- Split off the maximal leading run of ASCII digits. -/
def takeDigits : List Char → (List Char × List Char)
  | [] => ([], [])
  | c :: r =>
    if c.isDigit then
      let p := takeDigits r
      (c :: p.1, p.2)
    else ([], c :: r)

/-- nom `digit1`: at least one ASCII digit; value is the consumed digits. -/
def digit1 (i : List Char) : Option (List Char × List Char) :=
  match takeDigits i with
  | ([], _) => none
  | (ds, rest) => some (rest, ds)

/-- Split off the maximal leading run of ASCII alphanumeric characters. -/
def takeAlphanum : List Char → (List Char × List Char)
  | [] => ([], [])
  | c :: r =>
    if c.isAlphanum then
      let p := takeAlphanum r
      (c :: p.1, p.2)
    else ([], c :: r)

/-- nom `alphanumeric1`: at least one alphanumeric character. -/
def alphanumeric1 (i : List Char) : Option (List Char × List Char) :=
  match takeAlphanum i with
  | ([], _) => none
  | (ds, rest) => some (rest, ds)

/-- nom `tag`: match a literal and drop it. -/
def tag (t : List Char) (i : List Char) : Option (List Char × Unit) :=
  if t.isPrefixOf i then some (i.drop t.length, ()) else none

/-- nom `line_ending`: `"\n"` or `"\r\n"`. -/
def lineEnding : List Char → Option (List Char × Unit)
  | '\n' :: r => some (r, ())
  | '\r' :: '\n' :: r => some (r, ())
  | _ => none

/-- Index of the first occurrence of `t` as a contiguous sublist. -/
def findSubstrIdx (t : List Char) : List Char → Option Nat
  | [] => if t.isPrefixOf [] then some 0 else none
  | c :: r =>
    if t.isPrefixOf (c :: r) then some 0
    else (findSubstrIdx t r).map (· + 1)

/-- nom `take_until`: consume up to (not including) the first occurrence of
`t`; fail if `t` does not occur. -/
def take_until (t : List Char) (i : List Char) : Option (List Char × List Char) :=
  match findSubstrIdx t i with
  | some k => some (i.drop k, i.take k)
  | none => none

/-- Split off the maximal leading run of characters NOT satisfying `p`. -/
def spanNot (p : Char → Bool) : List Char → (List Char × List Char)
  | [] => ([], [])
  | c :: r =>
    if p c then ([], c :: r)
    else
      let q := spanNot p r
      (c :: q.1, q.2)

/-- nom `take_till`: consume (possibly zero) characters until `p` holds. -/
def take_till (p : Char → Bool) (i : List Char) : Option (List Char × List Char) :=
  some ((spanNot p i).2, (spanNot p i).1)

/-- The `ws` combinator of parser.rs / main.rs:
`delimited(multispace0, inner, multispace0)`. -/
def ws {α : Type} (f : List Char → Option (List Char × α)) (i : List Char) :
    Option (List Char × α) :=
  match f (multispace0 i) with
  | some (r, a) => some (multispace0 r, a)
  | none => none

/-- Numeric value of a digit string (most significant digit first). -/
def digitsVal (ds : List Char) : Nat :=
  ds.foldl (fun a c => 10 * a + (c.toNat - 48)) 0

/-- `usize::MAX + 1` on a 64-bit target. -/
def usizeBound : Nat := 2 ^ 64

/-- `isize::MAX + 1 = -isize::MIN` on a 64-bit target. -/
def isizeBound : Nat := 2 ^ 63

/-- parser.rs `parse_usize`: `map_res(ws(digit1), FromStr::from_str)`.
The `from_str` step fails (as `map_res` does) when the digit run does not
fit in `usize`. -/
def parse_usize (i : List Char) : Option (List Char × Nat) :=
  match ws digit1 i with
  | some (r, ds) => if digitsVal ds < usizeBound then some (r, digitsVal ds) else none
  | none => none

/-- parser.rs `parse_isize`:
`map_res(recognize(preceded(opt(char '-'), digit1)), FromStr::from_str)`.
No whitespace handling; optional single leading minus; `isize` range check. -/
def parse_isize (i : List Char) : Option (List Char × Int) :=
  match i with
  | '-' :: r =>
    match digit1 r with
    | some (rest, ds) =>
      if digitsVal ds ≤ isizeBound then some (rest, -(digitsVal ds : Int)) else none
    | none => none
  | _ =>
    match digit1 i with
    | some (rest, ds) =>
      if digitsVal ds < isizeBound then some (rest, (digitsVal ds : Int)) else none
    | none => none

/-- Value recognised by nom's `double`.  A finite decimal token is kept
exactly as `num * 10 ^ dscale`; the f64 rounding of the source introduces a
relative error below `2 ^ (-52)`, which is below half a nanosecond for every
duration this program can represent with sub-second text (see
`fromSecsFloat`), so the exact-decimal value is the faithful observable. -/
inductive FloatVal where
  | finite (num : Int) (dscale : Int)
  | infVal
  | nanVal
deriving DecidableEq

/-- Optional `+`/`-` sign; `true` means negative. -/
def parseOptSign : List Char → (List Char × Bool)
  | '+' :: r => (r, false)
  | '-' :: r => (r, true)
  | i => (i, false)

/-- Mantissa of nom `recognize_float`: `digit1 (('.') (digit1)?)?` or
`'.' digit1`; value is `(integer digits, fraction digits)`. -/
def parseMantissa (i : List Char) : Option (List Char × (List Char × List Char)) :=
  match digit1 i with
  | some (r, ds) =>
    match r with
    | '.' :: r2 =>
      match digit1 r2 with
      | some (r3, fs) => some (r3, (ds, fs))
      | none => some (r2, (ds, []))
    | _ => some (r, (ds, []))
  | none =>
    match i with
    | '.' :: r2 =>
      match digit1 r2 with
      | some (r3, fs) => some (r3, ([], fs))
      | none => none
    | _ => none

/-- Exponent part of nom `recognize_float`: optional `e`/`E`, optional sign,
then `cut(digit1)` — an `e` with no digits is a hard failure. Returns the
signed decimal exponent (0 when absent). -/
def parseExpPart (i : List Char) : Option (List Char × Int) :=
  match i with
  | c :: r =>
    if c == 'e' || c == 'E' then
      let p := parseOptSign r
      match digit1 p.1 with
      | some (r2, ds) =>
        some (r2, if p.2 then -(digitsVal ds : Int) else (digitsVal ds : Int))
      | none => none
    else some (i, 0)
  | [] => some ([], 0)

/-- Case-insensitive `tag` (nom `tag_no_case`), used for nan/inf tokens. -/
def tagNoCase (t : List Char) (i : List Char) : Option (List Char × Unit) :=
  if (i.take t.length).map Char.toLower = t.map Char.toLower then
    some (i.drop t.length, ())
  else none

/-- nom `double` (complete, on `&str`): `recognize_float` first, then the
`nan` / `infinity` / `inf` exceptions, value taken as the exact decimal. -/
def double (i : List Char) : Option (List Char × FloatVal) :=
  let p := parseOptSign i
  match parseMantissa p.1 with
  | some (r, m) =>
    match parseExpPart r with
    | some (r2, e) =>
      let mag : Nat := digitsVal (m.1 ++ m.2)
      let num : Int := if p.2 then -(mag : Int) else (mag : Int)
      some (r2, .finite num (e - (m.2.length : Int)))
    | none => none
  | none =>
    match tagNoCase "nan".toList i with
    | some (r, _) => some (r, .nanVal)
    | none =>
      match tagNoCase "infinity".toList i with
      | some (r, _) => some (r, .infVal)
      | none =>
        match tagNoCase "inf".toList i with
        | some (r, _) => some (r, .infVal)
        | none => none

/-- parser.rs `parse_f64`: `ws(double)`. -/
def parse_f64 (i : List Char) : Option (List Char × FloatVal) :=
  ws double i

/-- parser.rs `Stat`: the ten aggregate CPU tick counters. -/
structure Stat where
  user : Nat
  nice : Nat
  system : Nat
  idle : Nat
  iowait : Nat
  irq : Nat
  softirq : Nat
  steal : Nat
  guest : Nat
  guest_nice : Nat
deriving DecidableEq

/-- `n` sequential `parse_usize` applications (the `tuple` of ten
`parse_usize` in `parse_stat`, generalised over the count). -/
def parseNusize : Nat → List Char → Option (List Char × List Nat)
  | 0, i => some (i, [])
  | n + 1, i =>
    match parse_usize i with
    | some (r, v) =>
      match parseNusize n r with
      | some (r2, vs) => some (r2, v :: vs)
      | none => none
    | none => none

/-- The literal scanned for by `parse_stat`. -/
def cpuTok : List Char := "cpu ".toList

/-- parser.rs `parse_stat` (identical to the copy in main.rs):
`take_until("cpu ")`, then `preceded(tag("cpu "), tuple(ten parse_usize))`,
fields bound in the fixed order user, nice, system, idle, iowait, irq,
softirq, steal, guest, guest_nice. -/
def parse_stat (i : List Char) : Option (List Char × Stat) :=
  match take_until cpuTok i with
  | none => none
  | some (i1, _) =>
    match tag cpuTok i1 with
    | none => none
    | some (i2, _) =>
      match parseNusize 10 i2 with
      | some (r, [u, n, s, idl, io, irq, so, st, g, gn]) =>
        some (r, ⟨u, n, s, idl, io, irq, so, st, g, gn⟩)
      | _ => none

/-- Rust `std::time::Duration`: whole seconds (u64) plus nanoseconds. -/
structure Duration where
  secs : Nat
  nanos : Nat
deriving DecidableEq

def NANOS_PER_SEC : Nat := 1000000000

/-- Total nanoseconds strictly above any representable `Duration`. -/
def durationBound : Nat := 2 ^ 64 * NANOS_PER_SEC

/-- `Duration::from_secs_f64`, on the exact decimal value recognised by
`double`.  `none` models the panic on a negative, non-finite or overflowing
argument.  The value is rounded to nanosecond precision; rounding of a
half-nanosecond tie is half-up where Rust uses ties-to-even (no theorem
below evaluates at a tie). -/
def fromSecsFloat : FloatVal → Option Duration
  | .nanVal => none
  | .infVal => none
  | .finite num dscale =>
    if num < 0 then none
    else
      let n : Nat := num.toNat
      let e : Int := dscale + 9
      let total : Nat :=
        if 0 ≤ e then n * 10 ^ e.toNat
        else (n + 10 ^ (-e).toNat / 2) / 10 ^ (-e).toNat
      if total < durationBound then
        some ⟨total / NANOS_PER_SEC, total % NANOS_PER_SEC⟩
      else none

/-- parser.rs `parse_uptime`: `parse_f64` then `Duration::from_secs_f64`.
The inner `none` marks the conversion panicking mid-parse. -/
def parse_uptime (i : List Char) : Option (List Char × Option Duration) :=
  match parse_f64 i with
  | some (r, v) => some (r, fromSecsFloat v)
  | none => none

/-- parser.rs `MemInfo = HashMap<String, usize>`, kept as the parse-ordered
pair list; `hmGet` below gives the `HashMap`-collect lookup (a later pair
with the same key overwrites an earlier one). -/
abbrev MemInfo := List (List Char × Nat)

/-- nom `opt` on a recogniser: consume on success, stay put on failure. -/
def optConsume (f : List Char → Option (List Char × Unit)) (i : List Char) :
    List Char :=
  match f i with
  | some (r, _) => r
  | none => i

/-- parser.rs `parse_meminfo_line`: `take_until(":")`, `tag(":")`,
`parse_usize`, then `terminated(opt(tag "kB"), opt(line_ending))`. -/
def parse_meminfo_line (i : List Char) : Option (List Char × (List Char × Nat)) :=
  match take_until ":".toList i with
  | none => none
  | some (i1, label) =>
    match tag ":".toList i1 with
    | none => none
    | some (i2, _) =>
      match parse_usize i2 with
      | none => none
      | some (i3, v) =>
        some (optConsume lineEnding (optConsume (tag "kB".toList) i3), (label, v))

/-- nom `many0` with explicit fuel: stops (successfully) when the inner
parser errors, and fails with `ErrorKind::Many0` if the inner parser
succeeds without consuming input. -/
def many0go {α : Type} (p : List Char → Option (List Char × α)) :
    Nat → List Char → Option (List Char × List α)
  | 0, i => some (i, [])
  | fuel + 1, i =>
    match p i with
    | none => some (i, [])
    | some (r, a) =>
      if r = i then none
      else
        match many0go p fuel r with
        | some (r2, acc) => some (r2, a :: acc)
        | none => none

/-- nom `many0`; the fuel `i.length + 1` is never exhausted because every
successful inner step consumes at least one character. -/
def many0 {α : Type} (p : List Char → Option (List Char × α)) (i : List Char) :
    Option (List Char × List α) :=
  many0go p (i.length + 1) i

/-- parser.rs `parse_meminfo`: `many0(parse_meminfo_line)` collected into
the mapping (kept as the parse-ordered list, see `MemInfo`). -/
def parse_meminfo (i : List Char) : Option (List Char × MemInfo) :=
  many0 parse_meminfo_line i

/-- parser.rs `SwapType`. -/
inductive SwapType where
  | File
  | Partition
deriving DecidableEq

/-- parser.rs `impl FromStr for SwapType`: only `file` and `partition`. -/
def SwapType.fromStr (s : List Char) : Option SwapType :=
  if s = "file".toList then some .File
  else if s = "partition".toList then some .Partition
  else none

/-- parser.rs `Swap`: one row of /proc/swaps. -/
structure Swap where
  swap_type : SwapType
  size : Nat
  used : Nat
  priority : Int
deriving DecidableEq

/-- parser.rs `Swaps = HashMap<String, Swap>`, kept as the parse-ordered
pair list (collect semantics recovered where it matters, see
`SwapAgg.fromSwaps`). -/
abbrev Swaps := List (List Char × Swap)

/-- parser.rs `parse_swap_line`: filename up to whitespace, `ws(alphanumeric1)`
fed to `SwapType::from_str` (a `map_res`), size, used, signed priority, then
a mandatory line ending. -/
def parse_swap_line (i : List Char) : Option (List Char × (List Char × Swap)) :=
  match take_till isSpaceChar i with
  | none => none
  | some (i1, filename) =>
    match ws alphanumeric1 i1 with
    | none => none
    | some (i2, tok) =>
      match SwapType.fromStr tok with
      | none => none
      | some st =>
        match parse_usize i2 with
        | none => none
        | some (i3, size) =>
          match parse_usize i3 with
          | none => none
          | some (i4, used) =>
            match parse_isize i4 with
            | none => none
            | some (i5, prio) =>
              match lineEnding i5 with
              | none => none
              | some (i6, _) => some (i6, (filename, ⟨st, size, used, prio⟩))

/-- The last header token of `parse_swaps`:
`ws(terminated(tag("Priority"), line_ending))`. -/
def header_priority (i : List Char) : Option (List Char × Unit) :=
  ws (fun j =>
    match tag "Priority".toList j with
    | some (r, _) =>
      match lineEnding r with
      | some (r2, _) => some (r2, ())
      | none => none
    | none => none) i

/-- parser.rs `parse_swaps`: the exact header token sequence, then
`many0(parse_swap_line)`. -/
def parse_swaps (i : List Char) : Option (List Char × Swaps) :=
  match ws (tag "Filename".toList) i with
  | none => none
  | some (i1, _) =>
    match ws (tag "Type".toList) i1 with
    | none => none
    | some (i2, _) =>
      match ws (tag "Size".toList) i2 with
      | none => none
      | some (i3, _) =>
        match ws (tag "Used".toList) i3 with
        | none => none
        | some (i4, _) =>
          match header_priority i4 with
          | none => none
          | some (i5, _) => many0 parse_swap_line i5

/-- parser.rs `parse_nix_store_path`: `preceded(tag("/nix/store/"), rest)`. -/
def parse_nix_store_path (i : List Char) : Option (List Char × List Char) :=
  match tag "/nix/store/".toList i with
  | some (r, _) => some ([], r)
  | none => none

/-! metrics.rs -/

/-- metrics.rs `MetricError`. -/
inductive MetricError where
  | FileRead (msg : String)
  | LinkRead (msg : String)
  | MetricParse (msg : String)
deriving DecidableEq

/-- The environment `get_metrics` reads from: the text of each pseudo-file
(by path) and the target of each symlink (by path); `none` models an
`std::fs` read error. -/
structure Fs where
  file : String → Option (List Char)
  link : String → Option (List Char)

/-- metrics.rs `read_file` (`fs::read_to_string` + error mapping). -/
def read_file (fs : Fs) (fp : String) : Except MetricError (List Char) :=
  match fs.file fp with
  | some s => .ok s
  | none => .error (.FileRead ("Unable to read " ++ fp))

/-- metrics.rs `read_link` (`fs::read_link` + error mapping). -/
def read_link (fs : Fs) (fp : String) : Except MetricError (List Char) :=
  match fs.link fp with
  | some l => .ok l
  | none => .error (.LinkRead ("Unable to read link " ++ fp))

/-- metrics.rs `read_nixos_current_system`. -/
def read_nixos_current_system (fs : Fs) : Except MetricError (List Char) :=
  match read_link fs "/run/current-system" with
  | .error e => .error e
  | .ok l =>
    match parse_nix_store_path l with
    | some (_, current_system) => .ok current_system
    | none => .error (.MetricParse "Unable to parse current system")

/-- metrics.rs `Cpu` (derived metric). -/
structure Cpu where
  total : Nat
  used : Nat
deriving DecidableEq

/-- Wrapping (release-mode) `usize` subtraction `a - b` for operands below
`2 ^ 64`; a debug build panics at exactly the inputs where this wraps. -/
def usizeSub (a b : Nat) : Nat :=
  (a + usizeBound - b) % usizeBound

/-- metrics.rs `impl From<Stat> for Cpu`: `total` is the plain `usize` sum
of all ten fields (wrapping in release on overflow), `used = total - idle`
(plain `usize` subtraction). -/
def Cpu.fromStat (s : Stat) : Cpu :=
  let total := (s.user + s.nice + s.system + s.idle + s.iowait + s.irq +
    s.softirq + s.steal + s.guest + s.guest_nice) % usizeBound
  { total := total, used := usizeSub total s.idle }

/-- metrics.rs `impl Sub<&Cpu> for &Cpu`: plain field-wise `usize`
subtraction, no non-negativity check. -/
def cpuSub (a b : Cpu) : Cpu :=
  { total := usizeSub a.total b.total, used := usizeSub a.used b.used }

/-- metrics.rs `Memory` (derived metric). -/
structure Memory where
  total : Nat
  used : Nat
deriving DecidableEq

/-- `HashMap::get` on a mapping collected from a pair list: the LAST pair
with the given key wins, as with `HashMap`'s insert-on-collect. -/
def hmGet (m : List (List Char × Nat)) (k : List Char) : Option Nat :=
  (m.reverse.find? (fun p => p.1 == k)).map (·.2)

/-- metrics.rs `impl From<MemInfo> for Memory`: looks up only `MemTotal`
and `MemAvailable`; `none` models the `expect` PANIC when either key is
absent (the source crashes, it does not return an error). -/
def Memory.fromMemInfo (m : MemInfo) : Option Memory :=
  match hmGet m "MemTotal".toList, hmGet m "MemAvailable".toList with
  | some total, some available => some { total := total, used := usizeSub total available }
  | _, _ => none

/-- metrics.rs `Swap` (the derived aggregate, distinct from the parser's
row type which keeps its source name `Swap` above). -/
structure SwapAgg where
  size : Nat
  used : Nat
deriving DecidableEq

/-- One `HashMap` insert into an association list: overwrite the existing
key or append. -/
def hmInsert (acc : List (List Char × Swap)) (p : List Char × Swap) :
    List (List Char × Swap) :=
  if acc.any (fun q => q.1 == p.1) then
    acc.map (fun q => if q.1 == p.1 then p else q)
  else acc ++ [p]

/-- `HashMap` collect of the parsed swap rows (duplicate filenames keep the
last row, as `collect::<HashMap<_,_>>` does). -/
def hmOfList (l : Swaps) : Swaps :=
  l.foldl hmInsert []

/-- metrics.rs `impl From<Swaps> for Swap`: fold summing sizes and used
over the map's values (`usize` adds, wrapping in release). -/
def SwapAgg.fromSwaps (s : Swaps) : SwapAgg :=
  (hmOfList s).foldl
    (fun acc p =>
      { size := (acc.size + p.2.size) % usizeBound,
        used := (acc.used + p.2.used) % usizeBound })
    ⟨0, 0⟩

/-- metrics.rs `Metrics`. -/
structure Metrics where
  uptime : Duration
  cpu_since_boot : Cpu
  cpu_delta : Cpu
  memory : Memory
  swap : SwapAgg
  current_system : Option (List Char)
deriving DecidableEq

/-- metrics.rs `get_metric`: read the file, run the parser, discard the
remainder, map a parse error to `MetricParse`. -/
def get_metric {α : Type} (fs : Fs) (fp : String)
    (f : List Char → Option (List Char × α)) : Except MetricError α :=
  match read_file fs fp with
  | .error e => .error e
  | .ok s =>
    match f s with
    | some (_, v) => .ok v
    | none => .error (.MetricParse ("Unable to parse metric from " ++ fp))

/-- Result of one `get_metrics` call.  `panics` models a Rust panic
escaping the function (there is no catch in the program), as opposed to a
returned `Err`. -/
inductive RefreshOutcome where
  | ok (m : Metrics)
  | err (e : MetricError)
  | panics
deriving DecidableEq

/-- metrics.rs `get_metrics`, stage for stage in source order: memory
(parse then the panicking `From` conversion), uptime (whose
`Duration::from_secs_f64` can panic mid-parse), swaps, stat, the delta
against `last_metrics`, then optionally the current-system symlink.  The
source's intermediate `let` bindings are inlined, value for value. -/
def get_metrics (fs : Fs) (last_metrics : Metrics) (get_current_system : Bool) :
    RefreshOutcome :=
  match get_metric fs "/proc/meminfo" parse_meminfo with
  | .error e => .err e
  | .ok mi =>
    match Memory.fromMemInfo mi with
    | none => .panics
    | some memory =>
      match get_metric fs "/proc/uptime" parse_uptime with
      | .error e => .err e
      | .ok none => .panics
      | .ok (some uptime) =>
        match get_metric fs "/proc/swaps" parse_swaps with
        | .error e => .err e
        | .ok sws =>
          match get_metric fs "/proc/stat" parse_stat with
          | .error e => .err e
          | .ok st =>
            match get_current_system with
            | true =>
              match read_nixos_current_system fs with
              | .error e => .err e
              | .ok cs =>
                .ok ⟨uptime, Cpu.fromStat st,
                  cpuSub (Cpu.fromStat st) last_metrics.cpu_since_boot,
                  memory, SwapAgg.fromSwaps sws, some cs⟩
            | false =>
              .ok ⟨uptime, Cpu.fromStat st,
                cpuSub (Cpu.fromStat st) last_metrics.cpu_since_boot,
                memory, SwapAgg.fromSwaps sws, none⟩

/-! Concrete sample data used by witnesses and counterexamples. -/

/-- A well-formed memory-info text (both required keys present). -/
def goodMeminfo : List Char := "MemTotal: 100 kB\nMemAvailable: 40 kB".toList

/-- A well-formed uptime text. -/
def goodUptime : List Char := "12.5 3.4".toList

/-- A well-formed swaps text with one device row. -/
def goodSwaps : List Char :=
  "Filename Type Size Used Priority\n/s file 10 4 -2\n".toList

/-- A well-formed stat text. -/
def goodStat : List Char := "cpu  1 2 3 4 5 6 7 8 9 10\n".toList

/-- A filesystem on which every source file reads and parses cleanly but
the current-system symlink is unreadable. -/
def fsGood : Fs where
  file := fun fp =>
    if fp = "/proc/meminfo" then some goodMeminfo
    else if fp = "/proc/uptime" then some goodUptime
    else if fp = "/proc/swaps" then some goodSwaps
    else if fp = "/proc/stat" then some goodStat
    else none
  link := fun _ => none

/-- `fsGood` with a malformed memory-info file: it contains no colon, so
`parse_meminfo` succeeds with an EMPTY mapping and the `Memory` conversion
panics. -/
def fsBadMeminfo : Fs :=
  { fsGood with
    file := fun fp =>
      if fp = "/proc/meminfo" then some "swap is off".toList else fsGood.file fp }

/-- A filesystem where nothing is readable. -/
def fsUnreadable : Fs where
  file := fun _ => none
  link := fun _ => none

/-- A previously published snapshot (all zeros), handed to `get_metrics`
as `last_metrics`. -/
def M0 : Metrics := ⟨⟨0, 0⟩, ⟨0, 0⟩, ⟨0, 0⟩, ⟨0, 0⟩, ⟨0, 0⟩, none⟩

/-- The snapshot `get_metrics fsGood M0 false` produces. -/
def Mgood : Metrics :=
  ⟨⟨12, 500000000⟩, ⟨55, 51⟩, ⟨55, 51⟩, ⟨100, 60⟩, ⟨10, 4⟩, none⟩

/-- Sum of the ten tick fields of a `Stat`, as an unbounded natural. -/
def statSum (s : Stat) : Nat :=
  s.user + s.nice + s.system + s.idle + s.iowait + s.irq + s.softirq +
    s.steal + s.guest + s.guest_nice

/-- `t` occurs in `i` as a contiguous substring. -/
def occursSub (t i : List Char) : Prop :=
  ∃ pre post, i = pre ++ t ++ post

/-- The head (if any) is not whitespace. -/
def headNotSpace : List Char → Bool
  | [] => true
  | c :: _ => !isSpaceChar c

/-- A well-formed rendered number: nonempty, all digits, in `usize` range. -/
abbrev wfNum (d : List Char) : Prop :=
  d ≠ [] ∧ d.all Char.isDigit = true ∧ digitsVal d < usizeBound

/-- Join rendered numbers with single spaces and terminate with the
non-numeric token `x`. -/
def joinNums (ds : List (List Char)) : List Char :=
  ds.foldr (fun d acc => d ++ ' ' :: acc) ['x']

/-! Helper lemmas: consumption bounds for the meminfo line parser, and
totality of `many0`. -/

theorem multispace0_length_le (i : List Char) :
    (multispace0 i).length ≤ i.length := by
  induction i with
  | nil => simp [multispace0]
  | cons c r ih =>
    simp only [multispace0]
    split
    · exact Nat.le_succ_of_le ih
    · simp

theorem takeDigits_len (i : List Char) :
    (takeDigits i).1.length + (takeDigits i).2.length = i.length := by
  induction i with
  | nil => simp [takeDigits]
  | cons c r ih =>
    simp only [takeDigits]
    split
    · simp only [List.length_cons]
      omega
    · simp

theorem digit1_length_le (i r ds : List Char) (h : digit1 i = some (r, ds)) :
    r.length ≤ i.length := by
  unfold digit1 at h
  split at h
  · cases h
  · next heq =>
    cases h
    have hlen := takeDigits_len i
    rw [heq] at hlen
    simp at hlen
    omega

theorem ws_digit1_length_le (i r ds : List Char) (h : ws digit1 i = some (r, ds)) :
    r.length ≤ i.length := by
  unfold ws at h
  split at h
  · next r1 a heq =>
    cases h
    calc (multispace0 r1).length ≤ r1.length := multispace0_length_le r1
      _ ≤ (multispace0 i).length := digit1_length_le _ _ _ heq
      _ ≤ i.length := multispace0_length_le i
  · cases h

theorem parse_usize_length_le (i r : List Char) (v : Nat)
    (h : parse_usize i = some (r, v)) : r.length ≤ i.length := by
  unfold parse_usize at h
  split at h
  · next r1 ds heq =>
    split at h
    · cases h
      exact ws_digit1_length_le _ _ _ heq
    · cases h
  · cases h

theorem take_until_length_le (t i r v : List Char)
    (h : take_until t i = some (r, v)) : r.length ≤ i.length := by
  unfold take_until at h
  split at h
  · next k heq =>
    cases h
    simp [List.length_drop]
  · cases h

theorem tag_length_lt (t i r : List Char) (u : Unit) (ht : t ≠ [])
    (h : tag t i = some (r, u)) : r.length < i.length := by
  unfold tag at h
  split at h
  · next hp =>
    cases h
    have hpre : t <+: i := List.isPrefixOf_iff_prefix.mp hp
    have hle : t.length ≤ i.length := hpre.length_le
    have hpos : 0 < t.length := List.length_pos.mpr ht
    simp only [List.length_drop]
    omega
  · cases h

theorem lineEnding_length_le (i r : List Char) (u : Unit)
    (h : lineEnding i = some (r, u)) : r.length ≤ i.length := by
  unfold lineEnding at h
  split at h
  · cases h; simp
  · cases h; simp only [List.length_cons]; omega
  · cases h

theorem tag_length_le (t i r : List Char) (u : Unit)
    (h : tag t i = some (r, u)) : r.length ≤ i.length := by
  unfold tag at h
  split at h
  · cases h
    simp [List.length_drop]
  · cases h

theorem optConsume_length_le (f : List Char → Option (List Char × Unit))
    (hf : ∀ j r u, f j = some (r, u) → r.length ≤ j.length) (i : List Char) :
    (optConsume f i).length ≤ i.length := by
  unfold optConsume
  split
  · next heq => exact hf _ _ _ heq
  · exact le_refl _

/-- A successful `parse_meminfo_line` consumes at least one character (the
colon), so nom's `many0` infinite-loop guard never fires on it. -/
theorem parse_meminfo_line_consumes (i : List Char) (r : List Char × (List Char × Nat))
    (h : parse_meminfo_line i = some r) : r.1.length < i.length := by
  unfold parse_meminfo_line at h
  split at h
  · cases h
  · next i1 label heq1 =>
    split at h
    · cases h
    · next i2 u heq2 =>
      split at h
      · cases h
      · next i3 v heq3 =>
        cases h
        have h1 : i1.length ≤ i.length := take_until_length_le _ _ _ _ heq1
        have h2 : i2.length < i1.length := tag_length_lt _ _ _ _ (by decide) heq2
        have h3 : i3.length ≤ i2.length := parse_usize_length_le _ _ _ heq3
        have h4 : (optConsume (tag "kB".toList) i3).length ≤ i3.length :=
          optConsume_length_le _ (fun j r u hj => tag_length_le _ _ _ _ hj) i3
        have h5 : (optConsume lineEnding (optConsume (tag "kB".toList) i3)).length ≤
            (optConsume (tag "kB".toList) i3).length :=
          optConsume_length_le _ (fun j r u hj => lineEnding_length_le _ _ _ hj) _
        dsimp only
        omega

theorem many0go_isSome {α : Type} (p : List Char → Option (List Char × α))
    (hp : ∀ j r, p j = some r → r.1.length < j.length) :
    ∀ fuel i, (many0go p fuel i).isSome = true := by
  intro fuel
  induction fuel with
  | zero => intro i; simp [many0go]
  | succ n ih =>
    intro i
    simp only [many0go]
    split
    · simp
    · next r a heq =>
      have hlt := hp _ _ heq
      have hne : r ≠ i := by
        intro hcontra
        subst hcontra
        simp at hlt
      rw [if_neg hne]
      have := ih r
      split
      · simp
      · next heq2 => rw [heq2] at this; simp at this

/-- `parse_meminfo` never fails, on any input whatsoever. -/
theorem parse_meminfo_isSome (i : List Char) :
    (parse_meminfo i).isSome = true := by
  unfold parse_meminfo many0
  exact many0go_isSome parse_meminfo_line
    (fun j r h => parse_meminfo_line_consumes j r h) _ i

/-! Helper lemmas: substring search, for `parse_stat`'s `take_until`. -/

theorem findSubstrIdx_some_occurs (t i : List Char) (k : Nat)
    (h : findSubstrIdx t i = some k) : occursSub t i := by
  induction i generalizing k with
  | nil =>
    unfold findSubstrIdx at h
    split at h
    · next hp =>
      obtain ⟨s, hs⟩ := List.isPrefixOf_iff_prefix.mp hp
      exact ⟨[], s, by simp [← hs]⟩
    · cases h
  | cons c r ih =>
    unfold findSubstrIdx at h
    split at h
    · next hp =>
      obtain ⟨s, hs⟩ := List.isPrefixOf_iff_prefix.mp hp
      exact ⟨[], s, by simp [← hs]⟩
    · cases heq : findSubstrIdx t r with
      | none => rw [heq] at h; cases h
      | some k' =>
        obtain ⟨pre, post, hpp⟩ := ih k' heq
        exact ⟨c :: pre, post, by simp [hpp]⟩

theorem findSubstrIdx_of_isPrefixOf (t i : List Char)
    (h : t.isPrefixOf i = true) : findSubstrIdx t i = some 0 := by
  cases i with
  | nil => unfold findSubstrIdx; simp [h]
  | cons c r => unfold findSubstrIdx; simp [h]

theorem findSubstrIdx_isSome_of_occurs (t pre post : List Char) :
    (findSubstrIdx t (pre ++ t ++ post)).isSome = true := by
  induction pre with
  | nil =>
    rw [show ([] : List Char) ++ t ++ post = t ++ post by simp]
    rw [findSubstrIdx_of_isPrefixOf t (t ++ post)
      (List.isPrefixOf_iff_prefix.mpr ⟨post, rfl⟩)]
    rfl
  | cons c pre ih =>
    rw [show (c :: pre) ++ t ++ post = c :: (pre ++ t ++ post) by simp]
    unfold findSubstrIdx
    split
    · rfl
    · cases heq : findSubstrIdx t (pre ++ t ++ post) with
      | none => rw [heq] at ih; cases ih
      | some k => simp

theorem take_until_none_of_not_occurs (t i : List Char) (h : ¬ occursSub t i) :
    take_until t i = none := by
  unfold take_until
  cases heq : findSubstrIdx t i with
  | none => rfl
  | some k => exact absurd (findSubstrIdx_some_occurs t i k heq) h

theorem parse_stat_none_of_not_occurs (i : List Char)
    (h : ¬ occursSub cpuTok i) : parse_stat i = none := by
  unfold parse_stat
  rw [take_until_none_of_not_occurs cpuTok i h]

/-! Helper lemmas: parsing a rendered digit string followed by a space
(for `parse_stat`'s strictness property). -/

theorem digit_not_space (c : Char) (h : c.isDigit = true) :
    isSpaceChar c = false := by
  by_contra hc
  simp only [Bool.not_eq_false, isSpaceChar, Bool.or_eq_true, beq_iff_eq] at hc
  rcases hc with ((h1 | h1) | h1) | h1 <;> subst h1 <;> exact absurd h (by decide)

theorem multispace0_cons_space (c : Char) (l : List Char)
    (h : isSpaceChar c = true) : multispace0 (c :: l) = multispace0 l := by
  simp [multispace0, h]

theorem multispace0_of_headNotSpace (l : List Char) (h : headNotSpace l = true) :
    multispace0 l = l := by
  cases l with
  | nil => rfl
  | cons c r =>
    simp only [headNotSpace, Bool.not_eq_true'] at h
    simp [multispace0, h]

theorem takeDigits_append (d : List Char) (c : Char) (r : List Char)
    (hd : d.all Char.isDigit = true) (hc : c.isDigit = false) :
    takeDigits (d ++ c :: r) = (d, c :: r) := by
  induction d with
  | nil => simp [takeDigits, hc]
  | cons a d' ih =>
    simp only [List.all_cons, Bool.and_eq_true] at hd
    simp [takeDigits, hd.1, ih hd.2]

theorem digit1_append (d : List Char) (c : Char) (r : List Char)
    (hne : d ≠ []) (hd : d.all Char.isDigit = true) (hc : c.isDigit = false) :
    digit1 (d ++ c :: r) = some (c :: r, d) := by
  unfold digit1
  rw [takeDigits_append d c r hd hc]
  cases d with
  | nil => exact absurd rfl hne
  | cons a d' => rfl

theorem parse_usize_append (d rest : List Char)
    (h1 : wfNum d) (h2 : headNotSpace rest = true) :
    parse_usize (d ++ ' ' :: rest) = some (rest, digitsVal d) := by
  obtain ⟨hne, hd, hb⟩ := h1
  have hms : multispace0 (d ++ ' ' :: rest) = d ++ ' ' :: rest := by
    cases d with
    | nil => exact absurd rfl hne
    | cons a d' =>
      simp only [List.all_cons, Bool.and_eq_true] at hd
      simp [multispace0, digit_not_space a hd.1]
  have hms2 : multispace0 (' ' :: rest) = rest := by
    rw [multispace0_cons_space ' ' rest (by decide)]
    exact multispace0_of_headNotSpace rest h2
  unfold parse_usize ws
  rw [hms, digit1_append d ' ' rest hne hd (by decide)]
  simp [hms2, hb]

theorem joinNums_cons (d : List Char) (ds : List (List Char)) :
    joinNums (d :: ds) = d ++ ' ' :: joinNums ds := rfl

theorem joinNums_headNotSpace (ds : List (List Char))
    (h : ∀ d ∈ ds, wfNum d) : headNotSpace (joinNums ds) = true := by
  cases ds with
  | nil => decide
  | cons d ds' =>
    obtain ⟨hne, hd, _⟩ := h d (by simp)
    cases d with
    | nil => exact absurd rfl hne
    | cons a d' =>
      rw [joinNums_cons]
      simp only [List.all_cons, Bool.and_eq_true] at hd
      simp only [List.cons_append, headNotSpace]
      simp [digit_not_space a hd.1]

theorem parseNusize_short (ds : List (List Char)) (n : Nat)
    (h : ∀ d ∈ ds, wfNum d) (hlen : ds.length < n) :
    parseNusize n (joinNums ds) = none := by
  induction ds generalizing n with
  | nil =>
    obtain ⟨m, rfl⟩ : ∃ m, n = m + 1 := ⟨n - 1, by omega⟩
    show parseNusize (m + 1) (joinNums []) = none
    unfold parseNusize
    rw [show parse_usize (joinNums []) = none from by decide]
  | cons d ds' ih =>
    obtain ⟨m, rfl⟩ : ∃ m, n = m + 1 := ⟨n - 1, by omega⟩
    rw [joinNums_cons]
    unfold parseNusize
    rw [parse_usize_append d (joinNums ds') (h d (by simp))
      (joinNums_headNotSpace ds' (fun d' hd' => h d' (by simp [hd'])))]
    have hih : parseNusize m (joinNums ds') = none :=
      ih m (fun d' hd' => h d' (by simp [hd'])) (by simp at hlen; omega)
    simp [hih]

/-! Helper lemmas: wrapping `usize` subtraction. -/

theorem usizeSub_of_le (a b : Nat) (hb : b ≤ a) (ha : a < usizeBound) :
    usizeSub a b = a - b := by
  have hB : usizeBound = 18446744073709551616 := by norm_num [usizeBound]
  unfold usizeSub
  rw [hB] at ha ⊢
  omega

theorem usizeSub_wrap (a b : Nat) (hab : a < b) (hb : b < usizeBound) :
    usizeSub a b = usizeBound - (b - a) ∧ a < usizeSub a b := by
  have hB : usizeBound = 18446744073709551616 := by norm_num [usizeBound]
  unfold usizeSub
  rw [hB] at hb ⊢
  omega

/-! The claims. -/

/-- C2 (counterexample): the claim says a delta `b - a` with `b`'s counters
smaller than `a`'s is clamped to zero or surfaced as an error and never
wraps.  In the source `impl Sub for &Cpu` is plain `usize` subtraction: at
`b = Cpu {total: 5, used: 2}`, `a = Cpu {total: 10, used: 4}` the release
build wraps to the huge values `2^64 - 5` and `2^64 - 2` (a debug build
panics), and nothing clamps to zero. -/
theorem C2_cpu_sub_counterexample :
    cpuSub ⟨5, 2⟩ ⟨10, 4⟩ = ⟨2 ^ 64 - 5, 2 ^ 64 - 2⟩ ∧ (2 : Nat) ^ 64 - 5 ≠ 0 :=
  ⟨by decide, by decide⟩

/-- C2 (amended): the `Cpu` delta is plain field-wise wrapping `usize`
subtraction with no non-negativity check: when the subtrahend field is not
larger the result is the true difference, and when it is larger the result
wraps modulo `2^64` to a value strictly greater than the minuend field
(debug builds panic instead). -/
theorem C2_cpu_sub_wrapping_amended (a b : Cpu)
    (ha : a.total < usizeBound) (hu : a.used < usizeBound)
    (hb : b.total < usizeBound) (hv : b.used < usizeBound) :
    ((b.total ≤ a.total → (cpuSub a b).total = a.total - b.total) ∧
      (a.total < b.total →
        (cpuSub a b).total = usizeBound - (b.total - a.total) ∧
          a.total < (cpuSub a b).total)) ∧
    ((b.used ≤ a.used → (cpuSub a b).used = a.used - b.used) ∧
      (a.used < b.used →
        (cpuSub a b).used = usizeBound - (b.used - a.used) ∧
          a.used < (cpuSub a b).used)) :=
  ⟨⟨fun h => usizeSub_of_le _ _ h ha, fun h => usizeSub_wrap _ _ h hb⟩,
    ⟨fun h => usizeSub_of_le _ _ h hu, fun h => usizeSub_wrap _ _ h hv⟩⟩

/-- C2 (witness): the amended theorem applied to the concrete in-range pair
`a = ⟨10, 5⟩`, `b = ⟨6, 2⟩`. -/
theorem C2_cpu_sub_wrapping_witness :
    (cpuSub ⟨10, 5⟩ ⟨6, 2⟩).total = 10 - 6 ∧ (cpuSub ⟨10, 5⟩ ⟨6, 2⟩).used = 5 - 2 :=
  ⟨(C2_cpu_sub_wrapping_amended ⟨10, 5⟩ ⟨6, 2⟩ (by decide) (by decide) (by decide)
      (by decide)).1.1 (by decide),
    (C2_cpu_sub_wrapping_amended ⟨10, 5⟩ ⟨6, 2⟩ (by decide) (by decide) (by decide)
      (by decide)).2.1 (by decide)⟩

/-- C8 (counterexample): the claim quantifies over every `Stat` value and
asserts `used ≤ total` always holds.  The ten fields are `usize`, so their
sum can overflow: at `user = 2^64 - 1`, `idle = 2` (all fields valid
`usize` values) the release-mode sum wraps to `total = 1` and
`used = total - idle` wraps to `2^64 - 1 > total` (a debug build panics at
the addition instead of producing a `Cpu` at all). -/
theorem C8_cpu_overflow_counterexample :
    (Cpu.fromStat ⟨2 ^ 64 - 1, 0, 0, 2, 0, 0, 0, 0, 0, 0⟩).total <
      (Cpu.fromStat ⟨2 ^ 64 - 1, 0, 0, 2, 0, 0, 0, 0, 0, 0⟩).used ∧
    (2 : Nat) ^ 64 - 1 < usizeBound ∧ (2 : Nat) < usizeBound := by decide

/-- C8 (amended): for every `Stat` whose ten-field sum does not overflow
`usize`, the derived `Cpu` has `total` equal to the sum of all ten tick
fields, `used = total - idle`, and hence `used ≤ total`. -/
theorem C8_cpu_from_stat_amended (s : Stat) (h : statSum s < usizeBound) :
    (Cpu.fromStat s).total = statSum s ∧
    (Cpu.fromStat s).used = statSum s - s.idle ∧
    (Cpu.fromStat s).used ≤ (Cpu.fromStat s).total := by
  have hB : usizeBound = 18446744073709551616 := by norm_num [usizeBound]
  obtain ⟨u, n, sy, idl, io, irq, so, st, g, gn⟩ := s
  unfold statSum at h
  unfold Cpu.fromStat usizeSub statSum
  dsimp only at h ⊢
  rw [hB] at h ⊢
  refine ⟨?_, ?_, ?_⟩ <;> omega

/-- C8 (witness): the amended theorem applied to the concrete stat
`⟨1, 2, 3, 4, 5, 6, 7, 8, 9, 10⟩` (sum 55, idle 4). -/
theorem C8_cpu_from_stat_witness :
    (Cpu.fromStat ⟨1, 2, 3, 4, 5, 6, 7, 8, 9, 10⟩).total =
      statSum ⟨1, 2, 3, 4, 5, 6, 7, 8, 9, 10⟩ ∧
    (Cpu.fromStat ⟨1, 2, 3, 4, 5, 6, 7, 8, 9, 10⟩).used =
      statSum ⟨1, 2, 3, 4, 5, 6, 7, 8, 9, 10⟩ - 4 ∧
    (Cpu.fromStat ⟨1, 2, 3, 4, 5, 6, 7, 8, 9, 10⟩).used ≤
      (Cpu.fromStat ⟨1, 2, 3, 4, 5, 6, 7, 8, 9, 10⟩).total :=
  C8_cpu_from_stat_amended ⟨1, 2, 3, 4, 5, 6, 7, 8, 9, 10⟩ (by decide)

/-- C5 (counterexample): the claim says a mapping missing `MemTotal` or
`MemAvailable` yields an error result, not a crash.  The source's
`From<MemInfo> for Memory` uses `expect`, which PANICS (modelled by `none`,
see `Memory.fromMemInfo`): at the empty mapping, and at a mapping holding
only `MemTotal`, the derivation panics instead of returning an error. -/
theorem C5_memory_panic_counterexample :
    Memory.fromMemInfo [] = none ∧
      Memory.fromMemInfo [("MemTotal".toList, 5)] = none := by decide

/-- C5 (amended): deriving `Memory` looks up only the `MemTotal` and
`MemAvailable` keys (the result depends on nothing else in the mapping);
when both are present it yields `total = MemTotal` and
`used = MemTotal - MemAvailable` (exact whenever `MemAvailable ≤ MemTotal`);
when either is absent the `expect` PANICS — the process crashes rather than
reporting an error result. -/
theorem C5_memory_derivation_amended (m m' : MemInfo) :
    (∀ t a, hmGet m "MemTotal".toList = some t →
      hmGet m "MemAvailable".toList = some a →
      Memory.fromMemInfo m = some ⟨t, usizeSub t a⟩ ∧
        (a ≤ t → t < usizeBound → usizeSub t a = t - a)) ∧
    (hmGet m "MemTotal".toList = none ∨ hmGet m "MemAvailable".toList = none →
      Memory.fromMemInfo m = none) ∧
    (hmGet m "MemTotal".toList = hmGet m' "MemTotal".toList →
      hmGet m "MemAvailable".toList = hmGet m' "MemAvailable".toList →
      Memory.fromMemInfo m = Memory.fromMemInfo m') := by
  refine ⟨?_, ?_, ?_⟩
  · intro t a ht ha
    refine ⟨?_, fun hle hb => usizeSub_of_le t a hle hb⟩
    unfold Memory.fromMemInfo
    rw [ht, ha]
  · intro h
    rcases h with h | h <;>
      cases hy : hmGet m "MemAvailable".toList <;>
        cases hx : hmGet m "MemTotal".toList <;>
          simp_all [Memory.fromMemInfo]
  · intro h1 h2
    unfold Memory.fromMemInfo
    rw [h1, h2]

/-- C5 (witness): the amended theorem applied to the concrete mapping with
`MemTotal = 100`, `MemAvailable = 40`. -/
theorem C5_memory_derivation_witness :
    Memory.fromMemInfo [("MemTotal".toList, 100), ("MemAvailable".toList, 40)] =
      some ⟨100, usizeSub 100 40⟩ ∧ usizeSub 100 40 = 100 - 40 := by
  have h := (C5_memory_derivation_amended
    [("MemTotal".toList, 100), ("MemAvailable".toList, 40)] []).1 100 40
    (by decide) (by decide)
  exact ⟨h.1, h.2 (by decide) (by decide)⟩

/-- C6 (counterexample): the claim says `parse_uptime` fails when the
leading token is not a valid non-negative float.  At input `"-1 2"` the
leading token `-1` is negative, yet the parser does NOT fail: nom's
`double` accepts the sign, and `Duration::from_secs_f64` then panics on the
negative value mid-parse (the inner `none`) instead of a parse error being
returned. -/
theorem C6_uptime_negative_counterexample :
    parse_uptime "-1 2".toList = some ("2".toList, none) := by decide

/-- C6 (amended): `parse_uptime` consumes only the first whitespace-
separated float token (the second number is left unconsumed), converts it
with nanosecond precision — `"605581.79 954456.53"` yields exactly
605581.79 seconds, i.e. 605581 s + 790000000 ns — and fails when no leading
float token can be recognised at all; a recognisable but negative leading
float is accepted by the parser and the `Duration` conversion panics
instead of failing. -/
theorem C6_uptime_amended :
    parse_uptime "605581.79 954456.53".toList =
      some ("954456.53".toList, some ⟨605581, 790000000⟩) ∧
    parse_uptime "abc".toList = none ∧
    parse_uptime "-5.0 1.0".toList = some ("1.0".toList, none) := by
  refine ⟨by decide, by decide, by decide⟩

/-- C4 (counterexample): the claim says `parse_meminfo` fails when a line
contains no colon.  At the colon-free input `"swap is off"` it does NOT
fail: `many0` turns the first line failure into a successful empty mapping
with the whole input left unconsumed. -/
theorem C4_meminfo_counterexample :
    parse_meminfo "swap is off".toList = some ("swap is off".toList, []) := by
  decide

/-- C4 (amended): `parse_meminfo` never fails on any input — a line with no
colon or a non-integer value merely stops consumption, leaving a suffix
unparsed with the pairs collected so far.  On inputs where every line is
well-formed it produces every label encountered (not only `MemTotal` and
`MemAvailable`), and a final line without a trailing newline still
parses. -/
theorem C4_meminfo_amended :
    (∀ i : List Char, (parse_meminfo i).isSome = true) ∧
    parse_meminfo
        "MemTotal: 10 kB\nMemFree: 2 kB\nMemAvailable: 4 kB\nHugePages_Total: 0".toList =
      some ([], [("MemTotal".toList, 10), ("MemFree".toList, 2),
        ("MemAvailable".toList, 4), ("HugePages_Total".toList, 0)]) :=
  ⟨parse_meminfo_isSome, by decide⟩

/-- C9: `parse_swaps` rejects a header whose tokens do not match
(`Prio` in place of `Priority` fails); the exact header followed by zero
device rows yields the empty mapping; a row's type token parses only to the
closed set `file`/`partition` (shown as a full characterisation of
`SwapType::from_str`, plus a row with type `ram` failing); and the priority
field accepts negative signed integers. -/
theorem C9_parse_swaps :
    parse_swaps "Filename Type Size Used Priority\n".toList = some ([], []) ∧
    parse_swaps "Filename Type Size Used Prio\n".toList = none ∧
    (∀ s t, SwapType.fromStr s = some t ↔
      (s = "file".toList ∧ t = SwapType.File) ∨
        (s = "partition".toList ∧ t = SwapType.Partition)) ∧
    parse_swap_line "/dev/sda2 ram 100 50 -2\n".toList = none ∧
    parse_swap_line "/dev/dm-1 partition 200 80 -2\n".toList =
      some ([], ("/dev/dm-1".toList, ⟨SwapType.Partition, 200, 80, -2⟩)) := by
  refine ⟨by decide, by decide, ?_, by decide, by decide⟩
  intro s t
  constructor
  · intro h
    unfold SwapType.fromStr at h
    split at h
    · next h1 => exact Or.inl ⟨h1, by cases h; rfl⟩
    · split at h
      · next h2 => exact Or.inr ⟨h2, by cases h; rfl⟩
      · cases h
  · intro h
    rcases h with ⟨rfl, rfl⟩ | ⟨rfl, rfl⟩
    · decide
    · decide

/-- C7: `parse_stat` fails whenever the literal token `cpu ` is absent from
the input entirely; and it scans forward to the first `cpu ` occurrence —
leading text is tolerated — then parses ten whitespace-delimited unsigned
integers into the `Stat` fields in the fixed order user, nice, system,
idle, iowait, irq, softirq, steal, guest, guest_nice, leaving the following
per-core `cpu0` line unconsumed and unaccumulated. -/
theorem C7_parse_stat_token :
    (∀ i : List Char, ¬ occursSub cpuTok i → parse_stat i = none) ∧
    parse_stat
        "intro\ncpu  1 2 3 4 5 6 7 8 9 10\ncpu0 11 12 13 14 15 16 17 18 19 20\n".toList =
      some ("cpu0 11 12 13 14 15 16 17 18 19 20\n".toList,
        ⟨1, 2, 3, 4, 5, 6, 7, 8, 9, 10⟩) :=
  ⟨fun i h => parse_stat_none_of_not_occurs i h, by decide⟩

/-- C7 (witness): the token-absence hypothesis discharged at the concrete
input `"hello"`, which contains no `cpu ` substring. -/
theorem C7_parse_stat_token_witness : parse_stat "hello".toList = none :=
  C7_parse_stat_token.1 "hello".toList (fun hocc => by
    obtain ⟨pre, post, hpp⟩ := hocc
    have h1 := findSubstrIdx_isSome_of_occurs cpuTok pre post
    rw [← hpp] at h1
    rw [show findSubstrIdx cpuTok "hello".toList = none from by decide] at h1
    cases h1)

/-- C10: `parse_stat` is strict about the ten fields — for every aggregate
line `cpu ` followed by fewer than ten well-formed integers and then the
non-numeric token `x`, parsing fails rather than defaulting the missing
trailing fields to zero; and because the whitespace skipped by
`parse_usize` includes newlines, ten integers spanning a line boundary do
parse. -/
theorem C10_parse_stat_strict :
    (∀ ds : List (List Char), (∀ d ∈ ds, wfNum d) → ds.length < 10 →
      parse_stat (cpuTok ++ joinNums ds) = none) ∧
    parse_stat "cpu 1 2 3 4 5\n6 7 8 9 10 rest".toList =
      some ("rest".toList, ⟨1, 2, 3, 4, 5, 6, 7, 8, 9, 10⟩) := by
  constructor
  · intro ds h hlen
    have h1 : take_until cpuTok (cpuTok ++ joinNums ds) =
        some (cpuTok ++ joinNums ds, []) := by
      unfold take_until
      rw [findSubstrIdx_of_isPrefixOf cpuTok _
        (List.isPrefixOf_iff_prefix.mpr (List.prefix_append _ _))]
      simp
    have h2 : tag cpuTok (cpuTok ++ joinNums ds) = some (joinNums ds, ()) := by
      unfold tag
      rw [if_pos (List.isPrefixOf_iff_prefix.mpr (List.prefix_append _ _))]
      rw [List.drop_left]
    unfold parse_stat
    rw [h1]
    dsimp only
    rw [h2]
    dsimp only
    rw [parseNusize_short ds 10 h hlen]
  · decide

/-- C10 (witness): the strictness hypothesis discharged at the concrete
three-number aggregate line `cpu 1 2 3 x`. -/
theorem C10_parse_stat_strict_witness :
    parse_stat (cpuTok ++ joinNums [['1'], ['2'], ['3']]) = none :=
  C10_parse_stat_strict.1 [['1'], ['2'], ['3']] (by decide) (by decide)

/-! Helper lemma: what a successful `get_metrics` implies — every field of
the returned snapshot is rebuilt from the fresh sample. -/

theorem get_metrics_ok_inv (fs : Fs) (last : Metrics) (gcs : Bool) (m' : Metrics)
    (hok : get_metrics fs last gcs = .ok m') :
    ∃ mi sws st,
      get_metric fs "/proc/meminfo" parse_meminfo = .ok mi ∧
      Memory.fromMemInfo mi = some m'.memory ∧
      get_metric fs "/proc/uptime" parse_uptime = .ok (some m'.uptime) ∧
      get_metric fs "/proc/swaps" parse_swaps = .ok sws ∧
      m'.swap = SwapAgg.fromSwaps sws ∧
      get_metric fs "/proc/stat" parse_stat = .ok st ∧
      m'.cpu_since_boot = Cpu.fromStat st ∧
      m'.cpu_delta = cpuSub (Cpu.fromStat st) last.cpu_since_boot ∧
      (gcs = false → m'.current_system = none) := by
  unfold get_metrics at hok
  cases h1 : get_metric fs "/proc/meminfo" parse_meminfo with
  | error e => rw [h1] at hok; exact absurd hok (by simp)
  | ok mi =>
    rw [h1] at hok
    dsimp only at hok
    cases h2 : Memory.fromMemInfo mi with
    | none => rw [h2] at hok; exact absurd hok (by simp)
    | some mem =>
      rw [h2] at hok
      dsimp only at hok
      cases h3 : get_metric fs "/proc/uptime" parse_uptime with
      | error e => rw [h3] at hok; exact absurd hok (by simp)
      | ok uo =>
        rw [h3] at hok
        cases uo with
        | none => exact absurd hok (by simp)
        | some up =>
          dsimp only at hok
          cases h4 : get_metric fs "/proc/swaps" parse_swaps with
          | error e => rw [h4] at hok; exact absurd hok (by simp)
          | ok sws =>
            rw [h4] at hok
            dsimp only at hok
            cases h5 : get_metric fs "/proc/stat" parse_stat with
            | error e => rw [h5] at hok; exact absurd hok (by simp)
            | ok st =>
              rw [h5] at hok
              dsimp only at hok
              cases gcs with
              | false =>
                dsimp only at hok
                cases hok
                exact ⟨mi, sws, st, rfl, by rw [h2], rfl, rfl, rfl, rfl, rfl,
                  rfl, fun _ => rfl⟩
              | true =>
                dsimp only at hok
                cases h6 : read_nixos_current_system fs with
                | error e => rw [h6] at hok; exact absurd hok (by simp)
                | ok cs =>
                  rw [h6] at hok
                  dsimp only at hok
                  cases hok
                  exact ⟨mi, sws, st, rfl, by rw [h2], rfl, rfl, rfl, rfl, rfl,
                    rfl, fun hc => absurd hc (by decide)⟩

/-- C1 (counterexample): the claim says any failing refresh returns an
error.  With a malformed memory-info file (`"swap is off"`, no colon),
`parse_meminfo` succeeds with an EMPTY mapping and the `Memory` conversion
panics via `expect`: the refresh neither succeeds nor returns an error —
the process crashes. -/
theorem C1_meminfo_panic_counterexample :
    get_metrics fsBadMeminfo M0 false = .panics := by decide

/-- C1 (amended): if the memory-info source is unreadable, `get_metrics`
returns a `FileRead` error (and likewise every unreadable source or
parser-reported failure yields an `Err` — but a meminfo that parses to a
mapping lacking `MemTotal`/`MemAvailable`, or a negative uptime value,
panics instead of returning an error).  A successful result is never
partial: every field of the returned snapshot comes from the fresh sample,
with `cpu_delta` computed against the previous `cpu_since_boot`; the
previous snapshot `last` is taken by immutable reference, hence unchanged. -/
theorem C1_refresh_error_amended (fs : Fs) (last : Metrics) (gcs : Bool) :
    (fs.file "/proc/meminfo" = none →
      get_metrics fs last gcs = .err (.FileRead ("Unable to read " ++ "/proc/meminfo"))) ∧
    (∀ m', get_metrics fs last gcs = .ok m' →
      ∃ mi sws st,
        get_metric fs "/proc/meminfo" parse_meminfo = .ok mi ∧
        Memory.fromMemInfo mi = some m'.memory ∧
        get_metric fs "/proc/uptime" parse_uptime = .ok (some m'.uptime) ∧
        get_metric fs "/proc/swaps" parse_swaps = .ok sws ∧
        m'.swap = SwapAgg.fromSwaps sws ∧
        get_metric fs "/proc/stat" parse_stat = .ok st ∧
        m'.cpu_since_boot = Cpu.fromStat st ∧
        m'.cpu_delta = cpuSub (Cpu.fromStat st) last.cpu_since_boot ∧
        (gcs = false → m'.current_system = none)) := by
  constructor
  · intro h
    unfold get_metrics get_metric read_file
    rw [h]
  · exact fun m' hok => get_metrics_ok_inv fs last gcs m' hok

/-- C1 (witness): the error clause discharged on the all-unreadable
filesystem, and the success clause discharged on `fsGood`, whose refresh
returns exactly `Mgood`. -/
theorem C1_refresh_error_witness :
    get_metrics fsUnreadable M0 false =
      .err (.FileRead ("Unable to read " ++ "/proc/meminfo")) ∧
    (∃ mi sws st,
      get_metric fsGood "/proc/meminfo" parse_meminfo = .ok mi ∧
      Memory.fromMemInfo mi = some Mgood.memory ∧
      get_metric fsGood "/proc/uptime" parse_uptime = .ok (some Mgood.uptime) ∧
      get_metric fsGood "/proc/swaps" parse_swaps = .ok sws ∧
      Mgood.swap = SwapAgg.fromSwaps sws ∧
      get_metric fsGood "/proc/stat" parse_stat = .ok st ∧
      Mgood.cpu_since_boot = Cpu.fromStat st ∧
      Mgood.cpu_delta = cpuSub (Cpu.fromStat st) M0.cpu_since_boot ∧
      (false = false → Mgood.current_system = none)) :=
  ⟨(C1_refresh_error_amended fsUnreadable M0 false).1 rfl,
    (C1_refresh_error_amended fsGood M0 false).2 Mgood (by decide)⟩

/-- C3 (counterexample): the claim says a symlink-resolution failure is
non-fatal and the refresh succeeds with the identifier absent.  On a
filesystem where all four source files parse cleanly but the
current-system link is unreadable, requesting the identifier makes the
whole refresh return a `LinkRead` error — the `?` operator aborts the
cycle. -/
theorem C3_symlink_counterexample :
    get_metrics fsGood M0 true =
      .err (.LinkRead ("Unable to read link " ++ "/run/current-system")) := by decide

/-- C3 (amended): when the installed-system identifier is NOT requested the
refresh succeeds with the identifier absent and the symlink plays no role;
but when it IS requested, a failure to read the symlink aborts the whole
refresh with a `LinkRead` error rather than degrading to an absent
identifier. -/
theorem C3_symlink_fatal_amended (fs : Fs) (last : Metrics) :
    (∀ m', get_metrics fs last false = .ok m' → m'.current_system = none) ∧
    (∀ m', get_metrics fs last false = .ok m' →
      fs.link "/run/current-system" = none →
      get_metrics fs last true =
        .err (.LinkRead ("Unable to read link " ++ "/run/current-system"))) := by
  constructor
  · intro m' hok
    obtain ⟨mi, sws, st, _, _, _, _, _, _, _, _, hcs⟩ :=
      get_metrics_ok_inv fs last false m' hok
    exact hcs rfl
  · intro m' hok hlink
    obtain ⟨mi, sws, st, h1, h2, h3, h4, h5, h6, h7, h8, hcs⟩ :=
      get_metrics_ok_inv fs last false m' hok
    unfold get_metrics
    rw [h1]
    dsimp only
    cases hm : Memory.fromMemInfo mi with
    | none => rw [hm] at h2; cases h2
    | some mem =>
      dsimp only
      rw [h3]
      dsimp only
      rw [h4]
      dsimp only
      rw [h6]
      dsimp only
      unfold read_nixos_current_system read_link
      rw [hlink]

/-- C3 (witness): the amended theorem discharged on `fsGood` (whose refresh
without the identifier returns `Mgood` and whose symlink is unreadable). -/
theorem C3_symlink_fatal_witness :
    Mgood.current_system = none ∧
    get_metrics fsGood M0 true =
      .err (.LinkRead ("Unable to read link " ++ "/run/current-system")) :=
  ⟨(C3_symlink_fatal_amended fsGood M0).1 Mgood (by decide),
    (C3_symlink_fatal_amended fsGood M0).2 Mgood (by decide) rfl⟩
